import Mathlib

/-!
Verification development for the PlanParse construction-drawing page
classifier.  The repository has two classifier variants:

* `src/main.py` (`DrawingClassifier`): the fine 15-category variant that
  fuses an occurrence-counting keyword baseline with a drawing-number
  prefix inference and a first-page cover override.
* `src/app/classifier.py`: the coarse zone-weighted 5-category variant
  with a text-density bonus.

Page text is modelled as `List Char` (the classifier only ever consumes
already-extracted, lower-cased text; OCR / PDF extraction are external
collaborators).  Python float confidences are modelled as exact rationals:
every confidence produced by the code is a small multiple of 1/10, and all
threshold comparisons performed by the code (`< 0.5`, capping at 1.0) give
identical answers under IEEE doubles and under exact rationals for the
integer keyword scores involved.  Python `str.count` counts
non-overlapping occurrences, which `countOcc` reproduces; `str.upper` and
the regex classes `[A-Z]`, `\d` are modelled over their ASCII meaning.
-/

/-- Characters of a string literal, the form in which all page text and
keyword phrases are manipulated here. -/
def chars (s : String) : List Char := s.data

/-- Python `min` on two floats, modelled on ℚ.  Written with an explicit
`if` (rather than Mathlib's lattice `min`, which is definitionally opaque
to kernel evaluation); `pymin_eq_min` identifies the two. -/
def pymin (a b : ℚ) : ℚ := if a ≤ b then a else b

/-- Rational addition in kernel-computable form (core `Rat.add` is marked
irreducible); `qadd_eq_add` identifies it with `+`. -/
def qadd (a b : ℚ) : ℚ := mkRat (a.num * b.den + b.num * a.den) (a.den * b.den)

/-- Python `pat in s` substring test. -/
def containsSub (pat : List Char) : List Char → Bool
  | [] => pat.isEmpty
  | c :: rest => List.isPrefixOf pat (c :: rest) || containsSub pat rest

/-- Helper for `countOcc`: scans the text left to right; the `Nat`
argument is the number of positions still to skip after a match, so that
occurrences are counted without overlap, exactly like Python `str.count`. -/
def countOccAux (pat : List Char) : List Char → Nat → Nat
  | [], _ => 0
  | _ :: rest, Nat.succ k => countOccAux pat rest k
  | c :: rest, 0 =>
    if List.isPrefixOf pat (c :: rest) then 1 + countOccAux pat rest (pat.length - 1)
    else countOccAux pat rest 0

/-- Python `s.count(pat)`: non-overlapping occurrence count. -/
def countOcc (pat : List Char) (s : List Char) : Nat :=
  if pat.isEmpty then s.length + 1 else countOccAux pat s 0

/-- The closed drawing-type taxonomy of `src/main.py` (`DrawingType`). -/
inductive DrawingType where
  | COVER
  | PROJECT_INFO
  | SITE_PLAN
  | FLOOR_PLAN
  | ELEVATION
  | SECTION
  | ROOF_PLAN
  | FOUNDATION
  | ELECTRICAL
  | PLUMBING
  | MECHANICAL
  | STRUCTURAL
  | DETAIL
  | SCHEDULE
  | UNKNOWN
  deriving DecidableEq, Fintype

/-- The per-page result record of `src/main.py` (`ClassificationResult`). -/
structure ClassificationResult where
  page_number : Nat
  classification : DrawingType
  confidence : ℚ
  keywords_found : List (List Char)
  drawing_number : Option (List Char)
  deriving DecidableEq

namespace DrawingClassifier

/-- Keyword phrases of each category, from `DrawingClassifier.__init__`
(`self.keywords`); `UNKNOWN` has no keywords. -/
def keywordsOf : DrawingType → List (List Char)
  | .COVER =>
    [chars "cover", chars "title sheet", chars "project title", chars "drawing index",
     chars "sheet index", chars "consultants", chars "project team"]
  | .PROJECT_INFO =>
    [chars "general notes", chars "legend", chars "abbreviations", chars "symbols",
     chars "project information", chars "code analysis", chars "vicinity map"]
  | .SITE_PLAN =>
    [chars "site plan", chars "plot plan", chars "survey", chars "property line",
     chars "setback", chars "parking layout", chars "landscape"]
  | .FLOOR_PLAN =>
    [chars "floor plan", chars "layout", chars "room schedule", chars "door schedule",
     chars "window schedule", chars "partition", chars "furniture plan"]
  | .ELEVATION =>
    [chars "elevation", chars "exterior elevation", chars "building elevation",
     chars "north elevation", chars "south elevation", chars "east elevation",
     chars "west elevation"]
  | .SECTION =>
    [chars "section", chars "building section", chars "wall section",
     chars "detail section", chars "cross section"]
  | .ROOF_PLAN =>
    [chars "roof plan", chars "roof framing", chars "roof layout", chars "roofing plan"]
  | .FOUNDATION =>
    [chars "foundation", chars "footing", chars "basement", chars "slab", chars "pier",
     chars "foundation plan", chars "grading plan"]
  | .ELECTRICAL =>
    [chars "electrical", chars "power plan", chars "lighting", chars "panel schedule",
     chars "circuit", chars "receptacle", chars "switch"]
  | .PLUMBING =>
    [chars "plumbing", chars "sanitary", chars "water", chars "drainage", chars "fixture",
     chars "domestic water", chars "waste"]
  | .MECHANICAL =>
    [chars "mechanical", chars "hvac", chars "duct", chars "ventilation",
     chars "air conditioning", chars "heating", chars "exhaust"]
  | .STRUCTURAL =>
    [chars "structural", chars "framing", chars "beam", chars "column", chars "truss",
     chars "steel", chars "concrete", chars "reinforcing"]
  | .DETAIL =>
    [chars "detail", chars "enlarged", chars "typical detail", chars "construction detail"]
  | .SCHEDULE =>
    [chars "schedule", chars "finish schedule", chars "door schedule",
     chars "window schedule", chars "room finish"]
  | .UNKNOWN => []

/-- Insertion order of the `self.keywords` dict in `DrawingClassifier.__init__`. -/
def keywordOrder : List DrawingType :=
  [.COVER, .PROJECT_INFO, .SITE_PLAN, .FLOOR_PLAN, .ELEVATION, .SECTION, .ROOF_PLAN,
   .FOUNDATION, .ELECTRICAL, .PLUMBING, .MECHANICAL, .STRUCTURAL, .DETAIL, .SCHEDULE]

/-- The `self.keywords` dict itself, as an insertion-ordered association list. -/
def keywords : List (DrawingType × List (List Char)) :=
  keywordOrder.map (fun d => (d, keywordsOf d))

/-- The `self.drawing_prefixes` dict (standard AIA discipline letters). -/
def drawing_prefixes (c : Char) : Option DrawingType :=
  if c = 'A' then some .FLOOR_PLAN
  else if c = 'S' then some .STRUCTURAL
  else if c = 'E' then some .ELECTRICAL
  else if c = 'M' then some .MECHANICAL
  else if c = 'P' then some .PLUMBING
  else if c = 'L' then some .SITE_PLAN
  else if c = 'C' then some .SITE_PLAN
  else none

/-- ASCII `[A-Z]` character class of the drawing-number regexes. -/
def isUpperLetter (c : Char) : Bool := 'A' ≤ c && c ≤ 'Z'

/-- ASCII `\d` character class of the drawing-number regexes. -/
def isDigitChar (c : Char) : Bool := '0' ≤ c && c ≤ '9'

/-- Regex `[A-Z]-\d{3}` (e.g. `A-101`) matched at the head of the text. -/
def matchLetterDashDDD : List Char → Option (List Char)
  | a :: b :: d1 :: d2 :: d3 :: _ =>
    if isUpperLetter a && b == '-' && isDigitChar d1 && isDigitChar d2 && isDigitChar d3 then
      some [a, b, d1, d2, d3]
    else none
  | _ => none

/-- Regex `[A-Z]\d{3}` (e.g. `A101`) matched at the head of the text. -/
def matchLetterDDD : List Char → Option (List Char)
  | a :: d1 :: d2 :: d3 :: _ =>
    if isUpperLetter a && isDigitChar d1 && isDigitChar d2 && isDigitChar d3 then
      some [a, d1, d2, d3]
    else none
  | _ => none

/-- Regex `[A-Z]-\d\.\d` (e.g. `A-1.1`) matched at the head of the text. -/
def matchLetterDashDdotD : List Char → Option (List Char)
  | a :: b :: d1 :: dot :: d2 :: _ =>
    if isUpperLetter a && b == '-' && isDigitChar d1 && dot == '.' && isDigitChar d2 then
      some [a, b, d1, dot, d2]
    else none
  | _ => none

/-- `re.search`: the leftmost position at which the fixed-length matcher
succeeds, returning the matched token. -/
def searchPat (m : List Char → Option (List Char)) : List Char → Option (List Char)
  | [] => m []
  | c :: rest =>
    match m (c :: rest) with
    | some tok => some tok
    | none => searchPat m rest

/-- `DrawingClassifier.extract_drawing_number`: upper-cases the text and
tries the three token shapes in priority order, each searched over the
whole text. -/
def extract_drawing_number (text : List Char) : Option (List Char) :=
  let up := text.map Char.toUpper
  match searchPat matchLetterDashDDD up with
  | some tok => some tok
  | none =>
    match searchPat matchLetterDDD up with
    | some tok => some tok
    | none => searchPat matchLetterDashDdotD up

/-- One category's keyword pass of `classify_by_keywords`: fold over the
category's keyword list accumulating the occurrence-count score and the
matched keywords in discovery order. -/
def scoreFor (text : List Char) (kws : List (List Char)) : Nat × List (List Char) :=
  kws.foldl
    (fun acc kw =>
      if containsSub kw text then (acc.1 + countOcc kw text, acc.2 ++ [kw]) else acc)
    (0, [])

/-- The scores / found-keywords maps of `classify_by_keywords`, one entry
per category in dict insertion order. -/
def scoredFull (text : List Char) : List (DrawingType × Nat × List (List Char)) :=
  keywords.map (fun p => (p.1, scoreFor text p.2))

/-- Raw keyword score of one category. -/
def scoreOf (text : List Char) (d : DrawingType) : Nat := (scoreFor text (keywordsOf d)).1

/-- Matched keywords of one category, in discovery order. -/
def foundFor (text : List Char) (d : DrawingType) : List (List Char) :=
  (scoreFor text (keywordsOf d)).2

/-- The maximal raw keyword score over all categories. -/
def maxRawScore (text : List Char) : Nat :=
  (scoredFull text).foldl (fun m q => max m q.2.1) 0

/-- `DrawingClassifier.classify_by_keywords`: keyword baseline.  Returns
`(best type, min(max_score / 5.0, 1.0), matched keywords of best type)`,
or `(UNKNOWN, 0.0, [])` when every score is zero.  Python's
`max(scores, key=scores.get)` keeps the first maximum in dict insertion
order, reproduced by the strict-greater fold. -/
def classify_by_keywords (text : List Char) : DrawingType × ℚ × List (List Char) :=
  if (scoredFull text).all (fun q => q.2.1 == 0) then (.UNKNOWN, 0, [])
  else
    match scoredFull text with
    | [] => (.UNKNOWN, 0, [])
    | p :: rest =>
      let best := rest.foldl (fun b q => if q.2.1 > b.2.1 then q else b) p
      (best.1, pymin (mkRat (best.2.1 : Int) 5) 1, best.2.2)

/-- `DrawingClassifier.classify_by_drawing_number`: map the (upper-cased)
first letter of the token through the prefix table. -/
def classify_by_drawing_number (dn : List Char) : Option DrawingType :=
  match dn with
  | [] => none
  | c :: _ => drawing_prefixes c.toUpper

/-- The `prefix_type` value computed in `classify_page`
(`classify_by_drawing_number(drawing_num) if drawing_num else None`). -/
def prefixTypeOf (text : List Char) : Option DrawingType :=
  match extract_drawing_number text with
  | none => none
  | some dn => classify_by_drawing_number dn

/-- The signal-combination step of `classify_page`: prefix override below
the 0.5 keyword-confidence threshold, +0.2 agreement boost capped at 1.0,
otherwise the keyword result.  A `none` prefix never equals the (never
`None`) keyword type in the Python `elif`, so it falls through unchanged. -/
def fuse (pt : Option DrawingType) (kt : DrawingType) (kc : ℚ) : DrawingType × ℚ :=
  match pt with
  | none => (kt, kc)
  | some p =>
    if kc < mkRat 1 2 then (p, mkRat 7 10)
    else if p = kt then (kt, pymin (qadd kc (mkRat 1 5)) 1)
    else (kt, kc)

/-- Cover string of the first-page special case in `classify_page`. -/
def coverKw : List Char := chars "cover"

/-- Final `(final_type, final_confidence)` of `classify_page`: the fused
result, overridden to `(COVER, 0.9)` on page 1 when `"cover"` occurs. -/
def finalPair (text : List Char) (page_num : Nat) : DrawingType × ℚ :=
  if page_num = 1 ∧ containsSub coverKw text = true then (.COVER, mkRat 9 10)
  else fuse (prefixTypeOf text) (classify_by_keywords text).1 (classify_by_keywords text).2.1

/-- `DrawingClassifier.classify_page`, as a function of the extracted page
text (OCR being an external collaborator).  Note that `keywords_found` is
the matched-keyword list of the keyword baseline, truncated to 5. -/
def classify_page (text : List Char) (page_num : Nat) : ClassificationResult :=
  { page_number := page_num
    classification := (finalPair text page_num).1
    confidence := (finalPair text page_num).2
    keywords_found := (classify_by_keywords text).2.2.take 5
    drawing_number := extract_drawing_number text }

/-- Raw score written the way the specification phrases it: the sum of
`text.count(keyword)` over the category's keywords occurring as
substrings. -/
def specRawScore (text : List Char) (d : DrawingType) : Nat :=
  (((keywordsOf d).filter (fun kw => containsSub kw text)).map
    (fun kw => countOcc kw text)).sum

end DrawingClassifier

namespace AppClassifier

/-- The category labels of `src/app/classifier.py` (string keys there);
`UNKNOWN` is the no-signal fallback label. -/
inductive Category where
  | FLOOR_PLAN
  | ELEVATION
  | FOUNDATION
  | GENERAL_NOTES
  | LEDGER
  | UNKNOWN
  deriving DecidableEq, Fintype

/-- Keyword tags of each category, from the module-level `KEYWORDS` dict. -/
def tagsOf : Category → List (List Char)
  | .FLOOR_PLAN =>
    [chars "floor plan", chars "level", chars "ground floor", chars "first floor",
     chars "second floor"]
  | .ELEVATION =>
    [chars "elevation", chars "north elevation", chars "south elevation",
     chars "east elevation", chars "west elevation"]
  | .FOUNDATION =>
    [chars "foundation plan", chars "foundation", chars "footing", chars "slab on grade"]
  | .GENERAL_NOTES =>
    [chars "general notes", chars "general note", chars "general construction notes",
     chars "general information", chars "notes and details", chars "abbreviations",
     chars "symbols", chars "legend", chars "code requirements"]
  | .LEDGER =>
    [chars "sheet index", chars "index of drawings", chars "drawing list", chars "schedule"]
  | .UNKNOWN => []

/-- Insertion order of the `KEYWORDS` dict. -/
def keywordOrder : List Category :=
  [.FLOOR_PLAN, .ELEVATION, .FOUNDATION, .GENERAL_NOTES, .LEDGER]

/-- The `KEYWORDS` dict as an insertion-ordered association list. -/
def KEYWORDS : List (Category × List (List Char)) :=
  keywordOrder.map (fun c => (c, tagsOf c))

/-- The running `scores` mapping of `classify_page`: a `defaultdict(int)`
modelled as an association list whose key order is first-touch order
(`defaultdict` iteration order), which is what Python's
`max(scores, key=scores.get)` ties are broken by. -/
def bump : List (Category × Nat) → Category → Nat → List (Category × Nat)
  | [], c, n => [(c, n)]
  | (d, s) :: rest, c, n =>
    if d = c then (d, s + n) :: rest else (d, s) :: bump rest c n

/-- Score of a category in the state (0 when the key was never touched). -/
def zlook : List (Category × Nat) → Category → Nat
  | [], _ => 0
  | (d, s) :: rest, c => if d = c then s else zlook rest c

/-- One text fragment's pass over the whole `KEYWORDS` table: every tag
occurring as a substring bumps its category's score by the weight `w`
(3 for title-block zones, 1 for full-page text). -/
def tagPass (fragment : List Char) (w : Nat) (st : List (Category × Nat)) :
    List (Category × Nat) :=
  KEYWORDS.foldl
    (fun st1 p =>
      p.2.foldl (fun st2 tag => if containsSub tag fragment then bump st2 p.1 w else st2) st1)
    st

/-- The score state after the zone pass (weight 3 per zone fragment) and
the full-text pass (weight 1), before the density bonus. -/
def preDensity (zones : List (List Char)) (full : List Char) : List (Category × Nat) :=
  tagPass full 1 (zones.foldl (fun st z => tagPass z 3 st) [])

/-- The final score state of `classify_page`: text-dense pages
(more than 2000 characters of full-page text) give `GENERAL_NOTES` a flat
+3 bonus. -/
def zscores (zones : List (List Char)) (full : List Char) : List (Category × Nat) :=
  if 2000 < full.length then bump (preDensity zones full) .GENERAL_NOTES 3
  else preDensity zones full

/-- Final score of one category. -/
def zscoreOf (zones : List (List Char)) (full : List Char) (c : Category) : Nat :=
  zlook (zscores zones full) c

/-- `classify_page` of `src/app/classifier.py`, as a function of the four
extracted zone texts and the full-page text (pdfplumber extraction being
an external collaborator).  An untouched (empty) score dict yields
`UNKNOWN`; otherwise the first key attaining the maximal score in
first-touch order is returned, like Python's `max(scores, key=scores.get)`. -/
def classify_page (zones : List (List Char)) (full : List Char) : Category :=
  match zscores zones full with
  | [] => .UNKNOWN
  | p :: rest => (rest.foldl (fun b q => if q.2 > b.2 then q else b) p).1

/-- Number of the category's tags occurring in a text fragment. -/
def matchCount (c : Category) (fragment : List Char) : Nat :=
  (tagsOf c).countP (fun tag => containsSub tag fragment)

end AppClassifier

/-! General lemmas: bridging the kernel-computable rational operations to
the standard ones, and facts about the `foldl`-based maximum selection
that Python's `max(dict, key=dict.get)` performs. -/

theorem pymin_eq_min (a b : ℚ) : pymin a b = min a b := (min_def a b).symm

theorem qadd_eq_add (a b : ℚ) : qadd a b = a + b := (Rat.add_def' a b).symm

theorem pymin_nonneg {a b : ℚ} (ha : 0 ≤ a) (hb : 0 ≤ b) : 0 ≤ pymin a b := by
  rw [pymin]
  split_ifs <;> assumption

theorem pymin_le_right (a b : ℚ) : pymin a b ≤ b := by
  rw [pymin]
  split_ifs with h
  · exact h
  · exact le_refl b

theorem pymin_mono_left {a b c : ℚ} (h : a ≤ b) : pymin a c ≤ pymin b c := by
  rw [pymin, pymin]
  split_ifs with h1 h2
  · exact h
  · exact h1
  · linarith
  · exact le_refl c

theorem mkRat_nat_eq_div (n d : Nat) : mkRat (n : Int) d = (n : ℚ) / (d : ℚ) := by
  rw [Rat.mkRat_eq_div]
  norm_num

theorem mkRat_nat_nonneg (n d : Nat) : 0 ≤ mkRat (n : Int) d := by
  rw [mkRat_nat_eq_div]
  positivity

theorem le_foldl_max {α : Type} (sc : α → Nat) (l : List α) :
    ∀ i, i ≤ l.foldl (fun m q => max m (sc q)) i := by
  induction l with
  | nil => intro i; exact le_refl i
  | cons q l ih =>
    intro i
    rw [List.foldl_cons]
    exact le_trans (Nat.le_max_left i (sc q)) (ih _)

theorem elem_le_foldl_max {α : Type} (sc : α → Nat) (l : List α) {a : α} (ha : a ∈ l) :
    ∀ i, sc a ≤ l.foldl (fun m q => max m (sc q)) i := by
  induction l with
  | nil => cases ha
  | cons q l ih =>
    intro i
    rw [List.foldl_cons]
    rcases List.mem_cons.mp ha with h | h
    · subst h
      exact le_trans (Nat.le_max_right i (sc a)) (le_foldl_max sc l _)
    · exact ih h _

theorem foldl_max_of_all_zero {α : Type} (sc : α → Nat) (l : List α)
    (h : ∀ a ∈ l, sc a = 0) : ∀ i, l.foldl (fun m q => max m (sc q)) i = i := by
  induction l with
  | nil => intro i; rfl
  | cons q l ih =>
    intro i
    rw [List.foldl_cons, h q (List.mem_cons_self q l), Nat.max_zero]
    exact ih (fun a ha => h a (List.mem_cons_of_mem q ha)) i

theorem foldl_max_le {α : Type} (sc : α → Nat) (l : List α) (M : Nat)
    (h : ∀ a ∈ l, sc a ≤ M) : ∀ i, i ≤ M → l.foldl (fun m q => max m (sc q)) i ≤ M := by
  induction l with
  | nil => intro i hi; exact hi
  | cons q l ih =>
    intro i hi
    rw [List.foldl_cons]
    exact ih (fun a ha => h a (List.mem_cons_of_mem q ha)) _
      (max_le hi (h q (List.mem_cons_self q l)))

theorem foldl_max_mono {α : Type} (f g : α → Nat) (l : List α)
    (h : ∀ a ∈ l, f a ≤ g a) :
    ∀ i j, i ≤ j →
      l.foldl (fun m q => max m (f q)) i ≤ l.foldl (fun m q => max m (g q)) j := by
  induction l with
  | nil => intro i j hij; exact hij
  | cons q l ih =>
    intro i j hij
    rw [List.foldl_cons, List.foldl_cons]
    exact ih (fun a ha => h a (List.mem_cons_of_mem q ha)) _ _
      (max_le_max hij (h q (List.mem_cons_self q l)))

/-- Python's `max(..., key=...)` keeps the first element attaining the
maximum: the strict-greater fold selects exactly the first list element
whose score equals the running maximum. -/
theorem foldl_best_find {α : Type} (sc : α → Nat) (l : List α) :
    ∀ a : α,
      (a :: l).find? (fun q => sc q == l.foldl (fun m r => max m (sc r)) (sc a)) =
        some (l.foldl (fun b r => if sc r > sc b then r else b) a) := by
  induction l with
  | nil =>
    intro a
    simp [List.find?]
  | cons q l ih =>
    intro a
    by_cases hq : sc q > sc a
    · have hmax : max (sc a) (sc q) = sc q := Nat.max_eq_right (le_of_lt hq)
      rw [List.foldl_cons, List.foldl_cons, hmax, if_pos hq]
      have hane : ¬((fun r => sc r == l.foldl (fun m r => max m (sc r)) (sc q)) a) = true := by
        have hlt : sc a < l.foldl (fun m r => max m (sc r)) (sc q) :=
          lt_of_lt_of_le hq (le_foldl_max sc l (sc q))
        simp only []
        simp [Nat.ne_of_lt hlt]
      rw [@List.find?_cons_of_neg _ (fun r => sc r == l.foldl (fun m r => max m (sc r)) (sc q))
        a (q :: l) hane]
      exact ih q
    · have hmax : max (sc a) (sc q) = sc a := Nat.max_eq_left (Nat.le_of_not_lt hq)
      rw [List.foldl_cons, List.foldl_cons, hmax, if_neg hq]
      have key := ih a
      by_cases ha : ((fun r => sc r == l.foldl (fun m r => max m (sc r)) (sc a)) a) = true
      · rw [@List.find?_cons_of_pos _ (fun r => sc r == l.foldl (fun m r => max m (sc r)) (sc a))
          a (q :: l) ha]
        rw [@List.find?_cons_of_pos _ (fun r => sc r == l.foldl (fun m r => max m (sc r)) (sc a))
          a l ha] at key
        exact key
      · have hqne :
            ¬((fun r => sc r == l.foldl (fun m r => max m (sc r)) (sc a)) q) = true := by
          have h1 : sc a ≤ l.foldl (fun m r => max m (sc r)) (sc a) := le_foldl_max sc l _
          have h2 : sc a ≠ l.foldl (fun m r => max m (sc r)) (sc a) := by
            simpa using ha
          have h3 : sc q ≤ sc a := Nat.le_of_not_lt hq
          have h4 : sc q ≠ l.foldl (fun m r => max m (sc r)) (sc a) := by omega
          simpa using h4
        rw [@List.find?_cons_of_neg _ (fun r => sc r == l.foldl (fun m r => max m (sc r)) (sc a))
          a (q :: l) ha]
        rw [@List.find?_cons_of_neg _ (fun r => sc r == l.foldl (fun m r => max m (sc r)) (sc a))
          q l hqne]
        rw [@List.find?_cons_of_neg _ (fun r => sc r == l.foldl (fun m r => max m (sc r)) (sc a))
          a l ha] at key
        exact key

/-! Lemmas about the fine-variant classifier. -/

theorem mkRat_7_10 : mkRat 7 10 = (7 : ℚ) / 10 := by rw [Rat.mkRat_eq_div]; norm_num

theorem mkRat_9_10 : mkRat 9 10 = (9 : ℚ) / 10 := by rw [Rat.mkRat_eq_div]; norm_num

theorem mkRat_1_2 : mkRat 1 2 = (1 : ℚ) / 2 := by rw [Rat.mkRat_eq_div]; norm_num

theorem mkRat_1_5 : mkRat 1 5 = (1 : ℚ) / 5 := by rw [Rat.mkRat_eq_div]; norm_num

theorem mkRat_3_5 : mkRat 3 5 = (3 : ℚ) / 5 := by rw [Rat.mkRat_eq_div]; norm_num

namespace DrawingClassifier

theorem scoreFor_aux_fst (text : List Char) (kws : List (List Char)) :
    ∀ (n : Nat) (fs : List (List Char)),
      (kws.foldl
        (fun acc kw =>
          if containsSub kw text then (acc.1 + countOcc kw text, acc.2 ++ [kw]) else acc)
        (n, fs)).1 =
      n + ((kws.filter (fun kw => containsSub kw text)).map (fun kw => countOcc kw text)).sum := by
  induction kws with
  | nil => intro n fs; simp
  | cons kw kws ih =>
    intro n fs
    rw [List.foldl_cons]
    by_cases h : containsSub kw text = true
    · rw [if_pos h, ih, List.filter_cons, if_pos h, List.map_cons, List.sum_cons]
      omega
    · rw [if_neg h, ih, List.filter_cons, if_neg h]

theorem scoreFor_aux_snd (text : List Char) (kws : List (List Char)) :
    ∀ (n : Nat) (fs : List (List Char)),
      (kws.foldl
        (fun acc kw =>
          if containsSub kw text then (acc.1 + countOcc kw text, acc.2 ++ [kw]) else acc)
        (n, fs)).2 =
      fs ++ kws.filter (fun kw => containsSub kw text) := by
  induction kws with
  | nil => intro n fs; simp
  | cons kw kws ih =>
    intro n fs
    rw [List.foldl_cons]
    by_cases h : containsSub kw text = true
    · rw [if_pos h, ih, List.filter_cons, if_pos h]
      simp
    · rw [if_neg h, ih, List.filter_cons, if_neg h]

theorem scoreOf_eq_spec (text : List Char) (d : DrawingType) :
    scoreOf text d = specRawScore text d := by
  rw [scoreOf, specRawScore, scoreFor, scoreFor_aux_fst]
  omega

theorem foundFor_eq_filter (text : List Char) (d : DrawingType) :
    foundFor text d = (keywordsOf d).filter (fun kw => containsSub kw text) := by
  rw [foundFor, scoreFor, scoreFor_aux_snd]
  simp

theorem mem_keywords {p : DrawingType × List (List Char)} (hp : p ∈ keywords) :
    p.2 = keywordsOf p.1 := by
  rcases List.mem_map.mp hp with ⟨d, _hd, rfl⟩
  rfl

theorem mem_scoredFull {text : List Char} {q : DrawingType × Nat × List (List Char)}
    (hq : q ∈ scoredFull text) : q.2 = scoreFor text (keywordsOf q.1) := by
  rcases List.mem_map.mp hq with ⟨p, hp, rfl⟩
  show scoreFor text p.2 = scoreFor text (keywordsOf p.1)
  rw [mem_keywords hp]

theorem scoredFull_ne_nil (text : List Char) : scoredFull text ≠ [] := by
  simp [scoredFull, keywords, keywordOrder]

theorem maxRawScore_cons {text : List Char} {p : DrawingType × Nat × List (List Char)}
    {rest : List (DrawingType × Nat × List (List Char))} (h : scoredFull text = p :: rest) :
    maxRawScore text = rest.foldl (fun m q => max m q.2.1) p.2.1 := by
  rw [maxRawScore, h, List.foldl_cons, Nat.zero_max]

/-- Characterization of the keyword baseline when some category scores:
the returned triple comes from the entry of the score table that `find?`
first reaches with the maximal raw score. -/
theorem classify_by_keywords_pos (text : List Char) (h : 0 < maxRawScore text) :
    ∃ best, best ∈ scoredFull text ∧
      classify_by_keywords text = (best.1, pymin (mkRat (best.2.1 : Int) 5) 1, best.2.2) ∧
      best.2.1 = maxRawScore text ∧
      (scoredFull text).find? (fun q => q.2.1 == maxRawScore text) = some best := by
  obtain ⟨p, rest, hpr⟩ := List.exists_cons_of_ne_nil (scoredFull_ne_nil text)
  have hM := maxRawScore_cons hpr
  have hall : ¬((scoredFull text).all (fun q => q.2.1 == 0) = true) := by
    intro hz
    have hzero : ∀ q ∈ scoredFull text, q.2.1 = 0 := by
      intro q hq
      simpa using List.all_eq_true.mp hz q hq
    have h0 : maxRawScore text = 0 := by
      rw [maxRawScore]
      exact foldl_max_of_all_zero (fun q : DrawingType × Nat × List (List Char) => q.2.1)
        (scoredFull text) hzero 0
    omega
  have hfind :
      (scoredFull text).find? (fun q => q.2.1 == maxRawScore text) =
        some (rest.foldl (fun b q => if q.2.1 > b.2.1 then q else b) p) := by
    rw [hpr, hM]
    exact foldl_best_find (fun q : DrawingType × Nat × List (List Char) => q.2.1) rest p
  refine ⟨rest.foldl (fun b q => if q.2.1 > b.2.1 then q else b) p,
    List.mem_of_find?_eq_some hfind, ?_, ?_, hfind⟩
  · simp only [classify_by_keywords]
    rw [if_neg hall, hpr]
  · have := List.find?_some hfind
    simpa using this

/-- The keyword baseline when every category's score is zero. -/
theorem classify_by_keywords_zero (text : List Char) (h : maxRawScore text = 0) :
    classify_by_keywords text = (.UNKNOWN, 0, []) := by
  have hall : (scoredFull text).all (fun q => q.2.1 == 0) = true := by
    rw [List.all_eq_true]
    intro q hq
    have hle := elem_le_foldl_max (fun q : DrawingType × Nat × List (List Char) => q.2.1)
      (scoredFull text) hq 0
    rw [maxRawScore] at h
    simp only [beq_iff_eq]
    omega
  simp only [classify_by_keywords]
  rw [if_pos hall]

/-- The keyword-baseline confidence always lies in `[0, 1]`. -/
theorem kwconf_bounds (text : List Char) :
    0 ≤ (classify_by_keywords text).2.1 ∧ (classify_by_keywords text).2.1 ≤ 1 := by
  rcases Nat.eq_zero_or_pos (maxRawScore text) with h | h
  · rw [classify_by_keywords_zero text h]
    norm_num
  · obtain ⟨best, _, heq, _, _⟩ := classify_by_keywords_pos text h
    rw [heq]
    show 0 ≤ pymin (mkRat (best.2.1 : Int) 5) 1 ∧ pymin (mkRat (best.2.1 : Int) 5) 1 ≤ 1
    exact ⟨pymin_nonneg (mkRat_nat_nonneg _ _) zero_le_one, pymin_le_right _ _⟩

/-- The fused confidence stays in `[0, 1]` whenever the keyword confidence
does. -/
theorem fuse_bounds (pt : Option DrawingType) (kt : DrawingType) (kc : ℚ)
    (h0 : 0 ≤ kc) (h1 : kc ≤ 1) : 0 ≤ (fuse pt kt kc).2 ∧ (fuse pt kt kc).2 ≤ 1 := by
  cases pt with
  | none => exact ⟨h0, h1⟩
  | some p =>
    simp only [fuse]
    by_cases hlt : kc < mkRat 1 2
    · rw [if_pos hlt, mkRat_7_10]
      norm_num
    · rw [if_neg hlt]
      by_cases hpk : p = kt
      · rw [if_pos hpk]
        show 0 ≤ pymin (qadd kc (mkRat 1 5)) 1 ∧ pymin (qadd kc (mkRat 1 5)) 1 ≤ 1
        have hq : 0 ≤ qadd kc (mkRat 1 5) := by
          rw [qadd_eq_add, mkRat_1_5]
          linarith
        exact ⟨pymin_nonneg hq zero_le_one, pymin_le_right _ _⟩
      · rw [if_neg hpk]
        exact ⟨h0, h1⟩

theorem fuse_none (kt : DrawingType) (kc : ℚ) : fuse none kt kc = (kt, kc) := rfl

theorem fuse_of_lt (pt kt : DrawingType) {kc : ℚ} (h : kc < 1/2) :
    fuse (some pt) kt kc = (pt, (7 : ℚ) / 10) := by
  have h' : kc < mkRat 1 2 := by
    rw [mkRat_1_2]
    exact h
  simp only [fuse]
  rw [if_pos h', mkRat_7_10]

theorem fuse_of_agree (pt kt : DrawingType) {kc : ℚ} (h : ¬(kc < 1/2)) (he : pt = kt) :
    fuse (some pt) kt kc = (kt, min (kc + 1/5) 1) := by
  have h' : ¬(kc < mkRat 1 2) := by
    rw [mkRat_1_2]
    exact h
  simp only [fuse]
  rw [if_neg h', if_pos he, pymin_eq_min, qadd_eq_add, mkRat_1_5]

theorem fuse_of_disagree (pt kt : DrawingType) {kc : ℚ} (h : ¬(kc < 1/2)) (hne : pt ≠ kt) :
    fuse (some pt) kt kc = (kt, kc) := by
  have h' : ¬(kc < mkRat 1 2) := by
    rw [mkRat_1_2]
    exact h
  simp only [fuse]
  rw [if_neg h', if_neg hne]

theorem finalPair_cover {text : List Char} {page_num : Nat}
    (h : page_num = 1 ∧ containsSub coverKw text = true) :
    finalPair text page_num = (.COVER, mkRat 9 10) := by
  rw [finalPair, if_pos h]

theorem finalPair_not_cover {text : List Char} {page_num : Nat}
    (h : ¬(page_num = 1 ∧ containsSub coverKw text = true)) :
    finalPair text page_num =
      fuse (prefixTypeOf text) (classify_by_keywords text).1
        (classify_by_keywords text).2.1 := by
  rw [finalPair, if_neg h]

theorem classify_page_classification (text : List Char) (page_num : Nat) :
    (classify_page text page_num).classification = (finalPair text page_num).1 := rfl

theorem classify_page_confidence (text : List Char) (page_num : Nat) :
    (classify_page text page_num).confidence = (finalPair text page_num).2 := rfl

theorem classify_page_keywords (text : List Char) (page_num : Nat) :
    (classify_page text page_num).keywords_found =
      (classify_by_keywords text).2.2.take 5 := rfl

theorem prefixTypeOf_of_none {text : List Char} (h : extract_drawing_number text = none) :
    prefixTypeOf text = none := by
  rw [prefixTypeOf, h]

/-- The final confidence of `classify_page` always lies in `[0, 1]`. -/
theorem confidence_bounds (text : List Char) (page_num : Nat) :
    0 ≤ (classify_page text page_num).confidence ∧
      (classify_page text page_num).confidence ≤ 1 := by
  show 0 ≤ (finalPair text page_num).2 ∧ (finalPair text page_num).2 ≤ 1
  rw [finalPair]
  by_cases hcov : page_num = 1 ∧ containsSub coverKw text = true
  · rw [if_pos hcov, mkRat_9_10]
    norm_num
  · rw [if_neg hcov]
    exact fuse_bounds _ _ _ (kwconf_bounds text).1 (kwconf_bounds text).2

/-- The keyword confidence in the positive case, as a function of the
maximal raw score. -/
theorem kwconf_eq_of_pos (text : List Char) (h : 0 < maxRawScore text) :
    (classify_by_keywords text).2.1 = pymin (mkRat (maxRawScore text : Int) 5) 1 := by
  obtain ⟨best, _, heq, hsc, _⟩ := classify_by_keywords_pos text h
  rw [heq]
  show pymin (mkRat (best.2.1 : Int) 5) 1 = _
  rw [hsc]

theorem maxRawScore_mono {t1 t2 : List Char}
    (h : ∀ d, scoreOf t1 d ≤ scoreOf t2 d) : maxRawScore t1 ≤ maxRawScore t2 := by
  rw [maxRawScore, maxRawScore]
  refine foldl_max_le (fun q : DrawingType × Nat × List (List Char) => q.2.1)
    (scoredFull t1) _ ?_ 0 (Nat.zero_le _)
  intro q hq
  rcases List.mem_map.mp hq with ⟨p, hp, rfl⟩
  show (scoreFor t1 p.2).1 ≤ _
  have h1 : (scoreFor t1 p.2).1 = scoreOf t1 p.1 := by
    rw [mem_keywords hp]
    rfl
  have h2 : (p.1, scoreFor t2 p.2) ∈ scoredFull t2 := List.mem_map_of_mem _ hp
  have h3 := elem_le_foldl_max (fun q : DrawingType × Nat × List (List Char) => q.2.1)
    (scoredFull t2) h2 0
  have h4 : (scoreFor t2 p.2).1 = scoreOf t2 p.1 := by
    rw [mem_keywords hp]
    rfl
  rw [h1]
  calc scoreOf t1 p.1 ≤ scoreOf t2 p.1 := h p.1
  _ = (scoreFor t2 p.2).1 := h4.symm
  _ ≤ _ := h3

theorem kwconf_mono {t1 t2 : List Char} (hM : maxRawScore t1 ≤ maxRawScore t2) :
    (classify_by_keywords t1).2.1 ≤ (classify_by_keywords t2).2.1 := by
  rcases Nat.eq_zero_or_pos (maxRawScore t1) with h1 | h1
  · rw [classify_by_keywords_zero t1 h1]
    exact (kwconf_bounds t2).1
  · have h2 : 0 < maxRawScore t2 := lt_of_lt_of_le h1 hM
    rw [kwconf_eq_of_pos t1 h1, kwconf_eq_of_pos t2 h2]
    apply pymin_mono_left
    rw [mkRat_nat_eq_div, mkRat_nat_eq_div]
    have hc : (maxRawScore t1 : ℚ) ≤ (maxRawScore t2 : ℚ) := by exact_mod_cast hM
    linarith

end DrawingClassifier

/-! Claim theorems.  Each theorem settles one claim of the specification
against the embedded classifier code. -/

/-- Claim C1: for every page whose page number equals 1 and whose raw
extracted text contains the literal substring "cover", `classify_page`
returns category COVER with confidence exactly 0.9, unconditionally
overriding both the keyword baseline and any drawing-number prefix
inference, regardless of other keyword content. -/
theorem c1_cover_page_override (text : List Char)
    (h : containsSub (chars "cover") text = true) :
    (DrawingClassifier.classify_page text 1).classification = DrawingType.COVER ∧
      (DrawingClassifier.classify_page text 1).confidence = (9 : ℚ) / 10 := by
  have hcov : (1 = 1 ∧ containsSub DrawingClassifier.coverKw text = true) := ⟨rfl, h⟩
  constructor
  · rw [DrawingClassifier.classify_page_classification,
      DrawingClassifier.finalPair_cover hcov]
  · rw [DrawingClassifier.classify_page_confidence,
      DrawingClassifier.finalPair_cover hcov]
    exact mkRat_9_10

theorem c1_cover_page_override_witness :
    containsSub (chars "cover") (chars "a-101 floor plan cover sheet") = true ∧
      ((DrawingClassifier.classify_page (chars "a-101 floor plan cover sheet") 1).classification =
          DrawingType.COVER ∧
        (DrawingClassifier.classify_page (chars "a-101 floor plan cover sheet") 1).confidence =
          (9 : ℚ) / 10) :=
  ⟨by decide, c1_cover_page_override (chars "a-101 floor plan cover sheet") (by decide)⟩

/-- Claim C2: outside the cover-page override, the drawing-number fusion
of `classify_page` behaves as specified: an extracted drawing number whose
prefix letter maps to a category overrides a weak (< 0.5) keyword baseline
with confidence fixed at 0.7; an agreeing prefix on a strong baseline adds
+0.2 capped at 1.0; a disagreeing prefix on a strong baseline leaves the
keyword result unmodified; and prefix letters outside the fixed table
(A, S, E, M, P, L, C) yield no inferred category and leave the keyword
result unchanged. -/
theorem c2_drawing_number_fusion (text : List Char) (page_num : Nat)
    (hcov : ¬(page_num = 1 ∧ containsSub (chars "cover") text = true)) :
    (∀ pt, DrawingClassifier.prefixTypeOf text = some pt →
        (DrawingClassifier.classify_by_keywords text).2.1 < 1/2 →
        (DrawingClassifier.classify_page text page_num).classification = pt ∧
          (DrawingClassifier.classify_page text page_num).confidence = (7 : ℚ) / 10) ∧
      (∀ pt, DrawingClassifier.prefixTypeOf text = some pt →
        ¬((DrawingClassifier.classify_by_keywords text).2.1 < 1/2) →
        pt = (DrawingClassifier.classify_by_keywords text).1 →
        (DrawingClassifier.classify_page text page_num).classification =
            (DrawingClassifier.classify_by_keywords text).1 ∧
          (DrawingClassifier.classify_page text page_num).confidence =
            min ((DrawingClassifier.classify_by_keywords text).2.1 + 1/5) 1) ∧
      (∀ pt, DrawingClassifier.prefixTypeOf text = some pt →
        ¬((DrawingClassifier.classify_by_keywords text).2.1 < 1/2) →
        pt ≠ (DrawingClassifier.classify_by_keywords text).1 →
        (DrawingClassifier.classify_page text page_num).classification =
            (DrawingClassifier.classify_by_keywords text).1 ∧
          (DrawingClassifier.classify_page text page_num).confidence =
            (DrawingClassifier.classify_by_keywords text).2.1) ∧
      (DrawingClassifier.prefixTypeOf text = none →
        (DrawingClassifier.classify_page text page_num).classification =
            (DrawingClassifier.classify_by_keywords text).1 ∧
          (DrawingClassifier.classify_page text page_num).confidence =
            (DrawingClassifier.classify_by_keywords text).2.1) ∧
      (∀ c : Char, c ∉ (['A', 'S', 'E', 'M', 'P', 'L', 'C'] : List Char) →
        DrawingClassifier.drawing_prefixes c = none) := by
  have hfp := DrawingClassifier.finalPair_not_cover hcov
  refine ⟨?_, ?_, ?_, ?_, ?_⟩
  · intro pt hpt hlt
    have hfuse := DrawingClassifier.fuse_of_lt
      pt (DrawingClassifier.classify_by_keywords text).1 hlt
    constructor
    · rw [DrawingClassifier.classify_page_classification, hfp, hpt, hfuse]
    · rw [DrawingClassifier.classify_page_confidence, hfp, hpt, hfuse]
  · intro pt hpt hge he
    have hfuse := DrawingClassifier.fuse_of_agree
      pt (DrawingClassifier.classify_by_keywords text).1 hge he
    constructor
    · rw [DrawingClassifier.classify_page_classification, hfp, hpt, hfuse]
    · rw [DrawingClassifier.classify_page_confidence, hfp, hpt, hfuse]
  · intro pt hpt hge hne
    have hfuse := DrawingClassifier.fuse_of_disagree
      pt (DrawingClassifier.classify_by_keywords text).1 hge hne
    constructor
    · rw [DrawingClassifier.classify_page_classification, hfp, hpt, hfuse]
    · rw [DrawingClassifier.classify_page_confidence, hfp, hpt, hfuse]
  · intro hnone
    constructor
    · rw [DrawingClassifier.classify_page_classification, hfp, hnone,
        DrawingClassifier.fuse_none]
    · rw [DrawingClassifier.classify_page_confidence, hfp, hnone,
        DrawingClassifier.fuse_none]
  · intro c hc
    rw [DrawingClassifier.drawing_prefixes]
    split_ifs with h1 h2 h3 h4 h5 h6 h7
    · exact absurd (h1 ▸ (by decide : ('A' : Char) ∈ ['A', 'S', 'E', 'M', 'P', 'L', 'C'])) hc
    · exact absurd (h2 ▸ (by decide : ('S' : Char) ∈ ['A', 'S', 'E', 'M', 'P', 'L', 'C'])) hc
    · exact absurd (h3 ▸ (by decide : ('E' : Char) ∈ ['A', 'S', 'E', 'M', 'P', 'L', 'C'])) hc
    · exact absurd (h4 ▸ (by decide : ('M' : Char) ∈ ['A', 'S', 'E', 'M', 'P', 'L', 'C'])) hc
    · exact absurd (h5 ▸ (by decide : ('P' : Char) ∈ ['A', 'S', 'E', 'M', 'P', 'L', 'C'])) hc
    · exact absurd (h6 ▸ (by decide : ('L' : Char) ∈ ['A', 'S', 'E', 'M', 'P', 'L', 'C'])) hc
    · exact absurd (h7 ▸ (by decide : ('C' : Char) ∈ ['A', 'S', 'E', 'M', 'P', 'L', 'C'])) hc
    · rfl

theorem c2_drawing_number_fusion_witness :
    ¬((2 : Nat) = 1 ∧ containsSub (chars "cover") (chars "a-101 duct") = true) ∧
      DrawingClassifier.prefixTypeOf (chars "a-101 duct") = some DrawingType.FLOOR_PLAN ∧
      (DrawingClassifier.classify_by_keywords (chars "a-101 duct")).2.1 < 1/2 ∧
      ((DrawingClassifier.classify_page (chars "a-101 duct") 2).classification =
          DrawingType.FLOOR_PLAN ∧
        (DrawingClassifier.classify_page (chars "a-101 duct") 2).confidence =
          (7 : ℚ) / 10) := by
  have hkc : (DrawingClassifier.classify_by_keywords (chars "a-101 duct")).2.1 =
      mkRat 1 5 := by decide
  have hlt : (DrawingClassifier.classify_by_keywords (chars "a-101 duct")).2.1 < 1/2 := by
    rw [hkc, mkRat_1_5]
    norm_num
  exact ⟨by decide, by decide, hlt,
    (c2_drawing_number_fusion (chars "a-101 duct") 2 (by decide)).1 DrawingType.FLOOR_PLAN
      (by decide) hlt⟩

/-- Claim C3: the keyword baseline computes each category's raw score as
the sum of `text.count(keyword)` over that category's keywords occurring
as substrings, picks a category attaining the maximal raw score, and sets
the keyword confidence to `min(raw_score / 5.0, 1.0)` (here under the
hypothesis that some category scores, i.e. the code's explicit all-zero
fallback to UNKNOWN, claimed separately in C4, does not apply). -/
theorem c3_keyword_baseline (text : List Char)
    (h : 0 < DrawingClassifier.maxRawScore text) :
    (∀ d, DrawingClassifier.scoreOf text d = DrawingClassifier.specRawScore text d) ∧
      DrawingClassifier.scoreOf text ((DrawingClassifier.classify_by_keywords text).1) =
        DrawingClassifier.maxRawScore text ∧
      (DrawingClassifier.classify_by_keywords text).2.1 =
        min ((DrawingClassifier.maxRawScore text : ℚ) / 5) 1 := by
  obtain ⟨best, hmem, heq, hsc, _⟩ := DrawingClassifier.classify_by_keywords_pos text h
  refine ⟨DrawingClassifier.scoreOf_eq_spec text, ?_, ?_⟩
  · rw [heq]
    show DrawingClassifier.scoreOf text best.1 = DrawingClassifier.maxRawScore text
    have h2 := DrawingClassifier.mem_scoredFull hmem
    rw [DrawingClassifier.scoreOf, ← h2]
    exact hsc
  · rw [DrawingClassifier.kwconf_eq_of_pos text h, pymin_eq_min, mkRat_nat_eq_div]
    have h5 : ((5 : Nat) : ℚ) = 5 := by norm_num
    rw [h5]

theorem c3_keyword_baseline_witness :
    0 < DrawingClassifier.maxRawScore (chars "floor plan floor plan") ∧
      ((∀ d, DrawingClassifier.scoreOf (chars "floor plan floor plan") d =
          DrawingClassifier.specRawScore (chars "floor plan floor plan") d) ∧
        DrawingClassifier.scoreOf (chars "floor plan floor plan")
            ((DrawingClassifier.classify_by_keywords (chars "floor plan floor plan")).1) =
          DrawingClassifier.maxRawScore (chars "floor plan floor plan") ∧
        (DrawingClassifier.classify_by_keywords (chars "floor plan floor plan")).2.1 =
          min ((DrawingClassifier.maxRawScore (chars "floor plan floor plan") : ℚ) / 5) 1) :=
  ⟨by decide, c3_keyword_baseline (chars "floor plan floor plan") (by decide)⟩

/-- Claim C9: every result produced by `classify_page` has confidence in
the closed interval `[0, 1]`, under every combination of the keyword
baseline, the 0.7 prefix override, the capped +0.2 agreement boost, the
0.9 cover override, and the UNKNOWN case. -/
theorem c9_confidence_unit_interval (text : List Char) (page_num : Nat) :
    0 ≤ (DrawingClassifier.classify_page text page_num).confidence ∧
      (DrawingClassifier.classify_page text page_num).confidence ≤ 1 :=
  DrawingClassifier.confidence_bounds text page_num

/-- Claim C10: when several categories attain the maximal raw keyword
score (which is positive, the all-zero case returning UNKNOWN), the
category returned by `classify_by_keywords` is the one declared earliest
in the keyword table's insertion order, whose key sequence is COVER,
PROJECT_INFO, ..., SCHEDULE: the first table entry found with the maximal
score is exactly the returned one. -/
theorem c10_tie_breaking (text : List Char)
    (h : 0 < DrawingClassifier.maxRawScore text) :
    (DrawingClassifier.scoredFull text).find?
        (fun q => q.2.1 == DrawingClassifier.maxRawScore text) =
      some ((DrawingClassifier.classify_by_keywords text).1,
        DrawingClassifier.scoreFor text
          (DrawingClassifier.keywordsOf (DrawingClassifier.classify_by_keywords text).1)) ∧
      DrawingClassifier.keywords.map Prod.fst =
        [DrawingType.COVER, DrawingType.PROJECT_INFO, DrawingType.SITE_PLAN,
         DrawingType.FLOOR_PLAN, DrawingType.ELEVATION, DrawingType.SECTION,
         DrawingType.ROOF_PLAN, DrawingType.FOUNDATION, DrawingType.ELECTRICAL,
         DrawingType.PLUMBING, DrawingType.MECHANICAL, DrawingType.STRUCTURAL,
         DrawingType.DETAIL, DrawingType.SCHEDULE] := by
  obtain ⟨best, hmem, heq, hsc, hfind⟩ := DrawingClassifier.classify_by_keywords_pos text h
  constructor
  · rw [heq]
    show (DrawingClassifier.scoredFull text).find?
        (fun q => q.2.1 == DrawingClassifier.maxRawScore text) =
      some (best.1, DrawingClassifier.scoreFor text (DrawingClassifier.keywordsOf best.1))
    have h2 := DrawingClassifier.mem_scoredFull hmem
    rw [← h2, Prod.mk.eta]
    exact hfind
  · rfl

theorem c10_tie_breaking_witness :
    0 < DrawingClassifier.maxRawScore (chars "survey layout") ∧
      ((DrawingClassifier.scoredFull (chars "survey layout")).find?
          (fun q => q.2.1 == DrawingClassifier.maxRawScore (chars "survey layout")) =
        some ((DrawingClassifier.classify_by_keywords (chars "survey layout")).1,
          DrawingClassifier.scoreFor (chars "survey layout")
            (DrawingClassifier.keywordsOf
              (DrawingClassifier.classify_by_keywords (chars "survey layout")).1)) ∧
        DrawingClassifier.keywords.map Prod.fst =
          [DrawingType.COVER, DrawingType.PROJECT_INFO, DrawingType.SITE_PLAN,
           DrawingType.FLOOR_PLAN, DrawingType.ELEVATION, DrawingType.SECTION,
           DrawingType.ROOF_PLAN, DrawingType.FOUNDATION, DrawingType.ELECTRICAL,
           DrawingType.PLUMBING, DrawingType.MECHANICAL, DrawingType.STRUCTURAL,
           DrawingType.DETAIL, DrawingType.SCHEDULE]) :=
  ⟨by decide, c10_tie_breaking (chars "survey layout") (by decide)⟩

/-- Claim C4: any text in which no keyword of any category occurs and from
which no drawing-number token is extracted (in particular empty or
whitespace-only text) classifies as UNKNOWN with confidence 0.0, empty
evidence and no drawing number, on every page; the embedded classifier is
a total function, so no failure is possible. -/
theorem c4_degenerate_unknown (text : List Char) (page_num : Nat)
    (hkw : ∀ p ∈ DrawingClassifier.keywords, ∀ kw ∈ p.2, containsSub kw text = false)
    (hdn : DrawingClassifier.extract_drawing_number text = none) :
    DrawingClassifier.classify_page text page_num =
      { page_number := page_num, classification := DrawingType.UNKNOWN, confidence := 0,
        keywords_found := [], drawing_number := none } := by
  have hz : ∀ q ∈ DrawingClassifier.scoredFull text, q.2.1 = 0 := by
    intro q hq
    rcases List.mem_map.mp hq with ⟨p, hp, rfl⟩
    show (DrawingClassifier.scoreFor text p.2).1 = 0
    rw [DrawingClassifier.scoreFor, DrawingClassifier.scoreFor_aux_fst]
    have hnil : p.2.filter (fun kw => containsSub kw text) = [] := by
      rw [List.filter_eq_nil_iff]
      intro kw hkw2
      simp [hkw p hp kw hkw2]
    rw [hnil]
    simp
  have hM : DrawingClassifier.maxRawScore text = 0 := by
    rw [DrawingClassifier.maxRawScore]
    exact foldl_max_of_all_zero (fun q : DrawingType × Nat × List (List Char) => q.2.1)
      (DrawingClassifier.scoredFull text) hz 0
  have hck := DrawingClassifier.classify_by_keywords_zero text hM
  have hcovf : containsSub DrawingClassifier.coverKw text = false := by
    have hmem : (DrawingType.COVER, DrawingClassifier.keywordsOf DrawingType.COVER) ∈
        DrawingClassifier.keywords :=
      List.mem_map_of_mem _ (by decide : DrawingType.COVER ∈ DrawingClassifier.keywordOrder)
    exact hkw _ hmem DrawingClassifier.coverKw (by decide)
  have hcov : ¬(page_num = 1 ∧ containsSub DrawingClassifier.coverKw text = true) := by
    rintro ⟨-, h2⟩
    rw [hcovf] at h2
    cases h2
  have hfp : DrawingClassifier.finalPair text page_num = (DrawingType.UNKNOWN, 0) := by
    rw [DrawingClassifier.finalPair_not_cover hcov,
      DrawingClassifier.prefixTypeOf_of_none hdn, DrawingClassifier.fuse_none, hck]
  rw [DrawingClassifier.classify_page, hfp, hck, hdn]
  rfl

theorem c4_degenerate_unknown_witness :
    (∀ p ∈ DrawingClassifier.keywords, ∀ kw ∈ p.2, containsSub kw (chars "   ") = false) ∧
      DrawingClassifier.extract_drawing_number (chars "   ") = none ∧
      DrawingClassifier.classify_page (chars "   ") 3 =
        { page_number := 3, classification := DrawingType.UNKNOWN, confidence := 0,
          keywords_found := [], drawing_number := none } :=
  ⟨by decide, by decide, c4_degenerate_unknown (chars "   ") 3 (by decide) (by decide)⟩

/-- Claim C5 is false on the code: on page text "a-101 water" (page 2) the
drawing-number prefix override makes the final category FLOOR_PLAN, whose
matched-keyword list is empty, yet the returned evidence list is
["water"], the matched keywords of the keyword-baseline category PLUMBING,
not of the final category. -/
theorem c5_counterexample :
    (DrawingClassifier.classify_page (chars "a-101 water") 2).classification =
        DrawingType.FLOOR_PLAN ∧
      DrawingClassifier.foundFor (chars "a-101 water") DrawingType.FLOOR_PLAN = [] ∧
      (DrawingClassifier.classify_page (chars "a-101 water") 2).keywords_found =
        [chars "water"] ∧
      (DrawingClassifier.classify_page (chars "a-101 water") 2).keywords_found ≠
        (DrawingClassifier.foundFor (chars "a-101 water") DrawingType.FLOOR_PLAN).take 5 := by
  exact ⟨by decide, by decide, by decide, by decide⟩

/-- Claim C5 (amended): the evidence list of the returned result is the
matched-keyword list of the KEYWORD-BASELINE category (the argmax of the
keyword scores), truncated to the first 5 entries in the order the
keywords were first discovered — even when the drawing-number prefix
override or the cover-page override selects a different final category. -/
theorem c5_amended_evidence (text : List Char) (page_num : Nat) :
    (DrawingClassifier.classify_page text page_num).keywords_found =
      ((DrawingClassifier.keywordsOf ((DrawingClassifier.classify_by_keywords text).1)).filter
          (fun kw => containsSub kw text)).take 5 := by
  rw [DrawingClassifier.classify_page_keywords]
  rcases Nat.eq_zero_or_pos (DrawingClassifier.maxRawScore text) with h | h
  · rw [DrawingClassifier.classify_by_keywords_zero text h]
    rfl
  · obtain ⟨best, hmem, heq, _, _⟩ := DrawingClassifier.classify_by_keywords_pos text h
    rw [heq]
    show best.2.2.take 5 =
      ((DrawingClassifier.keywordsOf best.1).filter (fun kw => containsSub kw text)).take 5
    have h2 := DrawingClassifier.mem_scoredFull hmem
    have h3 : best.2.2 =
        (DrawingClassifier.scoreFor text (DrawingClassifier.keywordsOf best.1)).2 := by
      rw [← h2]
    rw [h3, DrawingClassifier.scoreFor, DrawingClassifier.scoreFor_aux_snd]
    simp

/-- Claim C6 is false on the code: final confidence is not monotone
non-decreasing in a fixed category's keyword occurrences.  With the
drawing number "a-101" present, two occurrences of the STRUCTURAL keyword
"beam" give keyword confidence 0.4 < 0.5, so the conflicting A-prefix
override yields confidence 0.7; a third occurrence raises keyword
confidence to 0.6 ≥ 0.5, the override no longer fires, and the final
confidence DROPS to 0.6 — all other categories' scores and the extracted
drawing number unchanged. -/
theorem c6_counterexample :
    DrawingClassifier.scoreOf (chars "a-101 beam beam") DrawingType.STRUCTURAL = 2 ∧
      DrawingClassifier.scoreOf (chars "a-101 beam beam beam") DrawingType.STRUCTURAL = 3 ∧
      (∀ d, d ≠ DrawingType.STRUCTURAL →
        DrawingClassifier.scoreOf (chars "a-101 beam beam") d =
          DrawingClassifier.scoreOf (chars "a-101 beam beam beam") d) ∧
      DrawingClassifier.extract_drawing_number (chars "a-101 beam beam") =
        DrawingClassifier.extract_drawing_number (chars "a-101 beam beam beam") ∧
      (DrawingClassifier.classify_page (chars "a-101 beam beam") 2).confidence =
        (7 : ℚ) / 10 ∧
      (DrawingClassifier.classify_page (chars "a-101 beam beam beam") 2).confidence =
        (3 : ℚ) / 5 ∧
      (DrawingClassifier.classify_page (chars "a-101 beam beam beam") 2).confidence <
        (DrawingClassifier.classify_page (chars "a-101 beam beam") 2).confidence := by
  have e1 : (DrawingClassifier.classify_page (chars "a-101 beam beam") 2).confidence =
      mkRat 7 10 := by decide
  have e2 : (DrawingClassifier.classify_page (chars "a-101 beam beam beam") 2).confidence =
      mkRat 3 5 := by decide
  refine ⟨by decide, by decide, by decide, by decide, ?_, ?_, by decide⟩
  · rw [e1]
    exact mkRat_7_10
  · rw [e2]
    exact mkRat_3_5

/-- Claim C6 (amended): for a fixed category, when no drawing-number token
is extracted from either text (so no conflicting prefix override can fire)
and the cover condition is unchanged, the final confidence of
`classify_page` is monotone non-decreasing in the category's keyword
occurrences (all other categories' scores held fixed) and never exceeds
1.0; with an extracted conflicting prefix, monotonicity fails as the
keyword confidence crosses the 0.5 threshold (see the counterexample). -/
theorem c6_amended_monotonicity (t1 t2 : List Char) (page_num : Nat) (c : DrawingType)
    (hd1 : DrawingClassifier.extract_drawing_number t1 = none)
    (hd2 : DrawingClassifier.extract_drawing_number t2 = none)
    (hmono : DrawingClassifier.scoreOf t1 c ≤ DrawingClassifier.scoreOf t2 c)
    (hfix : ∀ d, d ≠ c → DrawingClassifier.scoreOf t1 d = DrawingClassifier.scoreOf t2 d)
    (hcov : containsSub (chars "cover") t1 = containsSub (chars "cover") t2) :
    (DrawingClassifier.classify_page t1 page_num).confidence ≤
        (DrawingClassifier.classify_page t2 page_num).confidence ∧
      (DrawingClassifier.classify_page t2 page_num).confidence ≤ 1 := by
  refine ⟨?_, (DrawingClassifier.confidence_bounds t2 page_num).2⟩
  have hcov' : containsSub DrawingClassifier.coverKw t1 =
      containsSub DrawingClassifier.coverKw t2 := hcov
  have hall : ∀ d, DrawingClassifier.scoreOf t1 d ≤ DrawingClassifier.scoreOf t2 d := by
    intro d
    by_cases hd : d = c
    · subst hd
      exact hmono
    · exact le_of_eq (hfix d hd)
  have hkc := DrawingClassifier.kwconf_mono (DrawingClassifier.maxRawScore_mono hall)
  rw [DrawingClassifier.classify_page_confidence, DrawingClassifier.classify_page_confidence]
  by_cases hc1 : page_num = 1 ∧ containsSub DrawingClassifier.coverKw t1 = true
  · have hc2 : page_num = 1 ∧ containsSub DrawingClassifier.coverKw t2 = true := by
      refine ⟨hc1.1, ?_⟩
      rw [← hcov']
      exact hc1.2
    rw [DrawingClassifier.finalPair_cover hc1, DrawingClassifier.finalPair_cover hc2]
  · have hc2 : ¬(page_num = 1 ∧ containsSub DrawingClassifier.coverKw t2 = true) := by
      rintro ⟨hp, h2⟩
      refine hc1 ⟨hp, ?_⟩
      rw [hcov']
      exact h2
    rw [DrawingClassifier.finalPair_not_cover hc1, DrawingClassifier.finalPair_not_cover hc2,
      DrawingClassifier.prefixTypeOf_of_none hd1, DrawingClassifier.prefixTypeOf_of_none hd2,
      DrawingClassifier.fuse_none, DrawingClassifier.fuse_none]
    exact hkc

theorem c6_amended_monotonicity_witness :
    DrawingClassifier.extract_drawing_number (chars "beam") = none ∧
      DrawingClassifier.extract_drawing_number (chars "beam beam") = none ∧
      DrawingClassifier.scoreOf (chars "beam") DrawingType.STRUCTURAL ≤
        DrawingClassifier.scoreOf (chars "beam beam") DrawingType.STRUCTURAL ∧
      (∀ d, d ≠ DrawingType.STRUCTURAL →
        DrawingClassifier.scoreOf (chars "beam") d =
          DrawingClassifier.scoreOf (chars "beam beam") d) ∧
      containsSub (chars "cover") (chars "beam") =
        containsSub (chars "cover") (chars "beam beam") ∧
      ((DrawingClassifier.classify_page (chars "beam") 2).confidence ≤
          (DrawingClassifier.classify_page (chars "beam beam") 2).confidence ∧
        (DrawingClassifier.classify_page (chars "beam beam") 2).confidence ≤ 1) :=
  ⟨by decide, by decide, by decide, by decide, by decide,
    c6_amended_monotonicity (chars "beam") (chars "beam beam") 2 DrawingType.STRUCTURAL
      (by decide) (by decide) (by decide) (by decide) (by decide)⟩

/-! Lemmas about the coarse zone-weighted classifier. -/

namespace AppClassifier

theorem zlook_bump (st : List (Category × Nat)) (d : Category) (n : Nat) (c : Category) :
    zlook (bump st d n) c = zlook st c + if c = d then n else 0 := by
  induction st with
  | nil =>
    show zlook [(d, n)] c = zlook [] c + if c = d then n else 0
    rw [zlook, zlook]
    by_cases h : d = c
    · rw [if_pos h, if_pos h.symm]
      omega
    · rw [if_neg h, if_neg (fun hc => h hc.symm), zlook]
  | cons p rest ih =>
    obtain ⟨e, s⟩ := p
    rw [bump]
    by_cases h : e = d
    · rw [if_pos h, zlook, zlook]
      by_cases h2 : e = c
      · have hcd : c = d := h2.symm.trans h
        rw [if_pos h2, if_pos h2, if_pos hcd]
      · have hcd : ¬(c = d) := fun hcd => h2 (h.trans hcd.symm)
        rw [if_neg h2, if_neg h2, if_neg hcd]
        omega
    · rw [if_neg h, zlook, zlook]
      by_cases h2 : e = c
      · have hcd : ¬(c = d) := fun hcd => h (h2.trans hcd)
        rw [if_pos h2, if_pos h2, if_neg hcd]
        omega
      · rw [if_neg h2, if_neg h2]
        exact ih

theorem tagfold_zlook (zone : List Char) (d : Category) (w : Nat) (tags : List (List Char)) :
    ∀ (st : List (Category × Nat)) (c : Category),
      zlook (tags.foldl
          (fun s2 tag => if containsSub tag zone then bump s2 d w else s2) st) c =
        zlook st c +
          if c = d then w * tags.countP (fun tag => containsSub tag zone) else 0 := by
  induction tags with
  | nil =>
    intro st c
    rw [List.foldl_nil, List.countP_nil]
    by_cases h : c = d
    · rw [if_pos h]
      omega
    · rw [if_neg h]
      omega
  | cons tag tags ih =>
    intro st c
    rw [List.foldl_cons, List.countP_cons]
    by_cases h : containsSub tag zone = true
    · rw [if_pos h, ih, zlook_bump]
      by_cases h2 : c = d
      · rw [if_pos h2, if_pos h2, if_pos h2]
        simp only [h, if_pos]
        ring
      · rw [if_neg h2, if_neg h2, if_neg h2]
    · rw [if_neg h, ih]
      by_cases h2 : c = d
      · rw [if_pos h2, if_pos h2]
        simp only [h, if_false, Bool.false_eq_true]
        ring_nf
      · rw [if_neg h2, if_neg h2]

theorem tagPass_zlook (zone : List Char) (w : Nat) (st : List (Category × Nat))
    (c : Category) : zlook (tagPass zone w st) c = zlook st c + w * matchCount c zone := by
  rw [tagPass, KEYWORDS, keywordOrder]
  simp only [List.map_cons, List.map_nil, List.foldl_cons, List.foldl_nil]
  rw [tagfold_zlook, tagfold_zlook, tagfold_zlook, tagfold_zlook, tagfold_zlook]
  cases c <;> simp [matchCount, tagsOf]

theorem foldl_tags_noop (zone : List Char) (d : Category) (w : Nat)
    (tags : List (List Char)) (h : ∀ tag ∈ tags, containsSub tag zone = false) :
    ∀ st, tags.foldl
        (fun s2 tag => if containsSub tag zone then bump s2 d w else s2) st = st := by
  induction tags with
  | nil => intro st; rfl
  | cons tag tags ih =>
    intro st
    rw [List.foldl_cons, if_neg (by simp [h tag (List.mem_cons_self tag tags)]),
      ih (fun t ht => h t (List.mem_cons_of_mem tag ht))]

theorem tagPass_noop (zone : List Char) (w : Nat) (st : List (Category × Nat))
    (h : ∀ p ∈ KEYWORDS, ∀ tag ∈ p.2, containsSub tag zone = false) :
    tagPass zone w st = st := by
  have hmem : ∀ c ∈ keywordOrder, ∀ tag ∈ tagsOf c, containsSub tag zone = false := by
    intro c hc tag htag
    exact h (c, tagsOf c) (List.mem_map_of_mem _ hc) tag htag
  rw [tagPass, KEYWORDS, keywordOrder]
  simp only [List.map_cons, List.map_nil, List.foldl_cons, List.foldl_nil]
  rw [foldl_tags_noop _ _ _ _ (hmem _ (by decide)),
    foldl_tags_noop _ _ _ _ (hmem _ (by decide)),
    foldl_tags_noop _ _ _ _ (hmem _ (by decide)),
    foldl_tags_noop _ _ _ _ (hmem _ (by decide)),
    foldl_tags_noop _ _ _ _ (hmem _ (by decide))]

theorem zonesfold_noop (zones : List (List Char)) :
    ∀ st, (∀ z ∈ zones, ∀ p ∈ KEYWORDS, ∀ tag ∈ p.2, containsSub tag z = false) →
      zones.foldl (fun s z => tagPass z 3 s) st = st := by
  induction zones with
  | nil => intro st _; rfl
  | cons z zones ih =>
    intro st h
    rw [List.foldl_cons, tagPass_noop z 3 st (h z (List.mem_cons_self z zones))]
    exact ih _ (fun z' hz' => h z' (List.mem_cons_of_mem z hz'))

end AppClassifier

theorem containsSub_replicate {a : Char} (l : List Char) {c : Char} (h : a ≠ c) :
    ∀ n, containsSub (a :: l) (List.replicate n c) = false := by
  intro n
  induction n with
  | zero => rfl
  | succ n ih =>
    rw [List.replicate_succ, containsSub, ih, Bool.or_false]
    simp [List.isPrefixOf, h]

/-- Claim C7: in the coarse variant, a page whose full-page text is longer
than 2000 characters gets a flat +3 bonus on the GENERAL_NOTES score; in
particular, such a page with no category keywords anywhere classifies as
GENERAL_NOTES rather than UNKNOWN. -/
theorem c7_density_bonus (zones : List (List Char)) (full : List Char)
    (hlen : 2000 < full.length) :
    AppClassifier.zscoreOf zones full AppClassifier.Category.GENERAL_NOTES =
        AppClassifier.zlook (AppClassifier.preDensity zones full)
          AppClassifier.Category.GENERAL_NOTES + 3 ∧
      ((∀ p ∈ AppClassifier.KEYWORDS, ∀ tag ∈ p.2,
          containsSub tag full = false ∧ ∀ z ∈ zones, containsSub tag z = false) →
        AppClassifier.classify_page zones full = AppClassifier.Category.GENERAL_NOTES) := by
  constructor
  · rw [AppClassifier.zscoreOf, AppClassifier.zscores, if_pos hlen, AppClassifier.zlook_bump]
    simp
  · intro hno
    have h1 : zones.foldl (fun s z => AppClassifier.tagPass z 3 s) [] = [] :=
      AppClassifier.zonesfold_noop zones []
        (fun z hz p hp tag htag => (hno p hp tag htag).2 z hz)
    have h2 : AppClassifier.preDensity zones full = [] := by
      rw [AppClassifier.preDensity, h1,
        AppClassifier.tagPass_noop full 1 [] (fun p hp tag htag => (hno p hp tag htag).1)]
    have h3 : AppClassifier.zscores zones full =
        [(AppClassifier.Category.GENERAL_NOTES, 3)] := by
      rw [AppClassifier.zscores, if_pos hlen, h2]
      rfl
    rw [AppClassifier.classify_page, h3]
    rfl

theorem c7_density_bonus_witness :
    2000 < (List.replicate 2001 'x').length ∧
      (AppClassifier.zscoreOf [[], [], [], []] (List.replicate 2001 'x')
          AppClassifier.Category.GENERAL_NOTES =
        AppClassifier.zlook
          (AppClassifier.preDensity [[], [], [], []] (List.replicate 2001 'x'))
          AppClassifier.Category.GENERAL_NOTES + 3) ∧
      AppClassifier.classify_page [[], [], [], []] (List.replicate 2001 'x') =
        AppClassifier.Category.GENERAL_NOTES := by
  have hlen : 2000 < (List.replicate 2001 'x').length := by
    rw [List.length_replicate]
    omega
  have hthm := c7_density_bonus [[], [], [], []] (List.replicate 2001 'x') hlen
  refine ⟨hlen, hthm.1, hthm.2 ?_⟩
  intro p hp tag htag
  simp only [AppClassifier.KEYWORDS, AppClassifier.keywordOrder, List.map_cons,
    List.map_nil] at hp
  fin_cases hp <;> fin_cases htag <;>
    exact ⟨containsSub_replicate _ (by decide) 2001, by decide⟩

/-- Claim C8: in the zone-weighted variant, each keyword match in a
title-block zone adds 3 points to its category's score while the same
match in full-page body text adds only 1 point: with the same fragment
placed as the only zone text versus as the only body text, the zone-only
score is 3·m against the body-only score 1·m (m the number of matching
tags, here positive), so the zone-only score is strictly higher. -/
theorem c8_zone_weighting (t : List Char) (c : AppClassifier.Category)
    (hm : 0 < AppClassifier.matchCount c t) (hlen : t.length ≤ 2000) :
    AppClassifier.zscoreOf [t, [], [], []] [] c = 3 * AppClassifier.matchCount c t ∧
      AppClassifier.zscoreOf [[], [], [], []] t c = 1 * AppClassifier.matchCount c t ∧
      AppClassifier.zscoreOf [[], [], [], []] t c <
        AppClassifier.zscoreOf [t, [], [], []] [] c := by
  have hmcnil : ∀ c' : AppClassifier.Category,
      AppClassifier.matchCount c' ([] : List Char) = 0 := by
    intro c'
    cases c' <;> decide
  have hz : AppClassifier.zscoreOf [t, [], [], []] [] c = 3 * AppClassifier.matchCount c t := by
    rw [AppClassifier.zscoreOf, AppClassifier.zscores,
      if_neg (by decide : ¬(2000 < ([] : List Char).length)), AppClassifier.preDensity]
    simp only [List.foldl_cons, List.foldl_nil]
    rw [AppClassifier.tagPass_zlook, AppClassifier.tagPass_zlook, AppClassifier.tagPass_zlook,
      AppClassifier.tagPass_zlook, AppClassifier.tagPass_zlook, hmcnil]
    show AppClassifier.zlook [] c + 3 * AppClassifier.matchCount c t + 3 * 0 + 3 * 0 + 3 * 0
        + 1 * 0 = 3 * AppClassifier.matchCount c t
    rw [AppClassifier.zlook]
    omega
  have hb : AppClassifier.zscoreOf [[], [], [], []] t c =
      1 * AppClassifier.matchCount c t := by
    have hnl : ¬(2000 < t.length) := by omega
    rw [AppClassifier.zscoreOf, AppClassifier.zscores, if_neg hnl, AppClassifier.preDensity]
    simp only [List.foldl_cons, List.foldl_nil]
    rw [AppClassifier.tagPass_zlook, AppClassifier.tagPass_zlook, AppClassifier.tagPass_zlook,
      AppClassifier.tagPass_zlook, AppClassifier.tagPass_zlook, hmcnil]
    show AppClassifier.zlook [] c + 3 * 0 + 3 * 0 + 3 * 0 + 3 * 0
        + 1 * AppClassifier.matchCount c t = 1 * AppClassifier.matchCount c t
    rw [AppClassifier.zlook]
    omega
  refine ⟨hz, hb, ?_⟩
  rw [hz, hb]
  omega

theorem c8_zone_weighting_witness :
    0 < AppClassifier.matchCount AppClassifier.Category.FLOOR_PLAN (chars "floor plan") ∧
      (chars "floor plan").length ≤ 2000 ∧
      (AppClassifier.zscoreOf [chars "floor plan", [], [], []] []
            AppClassifier.Category.FLOOR_PLAN =
          3 * AppClassifier.matchCount AppClassifier.Category.FLOOR_PLAN
            (chars "floor plan") ∧
        AppClassifier.zscoreOf [[], [], [], []] (chars "floor plan")
            AppClassifier.Category.FLOOR_PLAN =
          1 * AppClassifier.matchCount AppClassifier.Category.FLOOR_PLAN
            (chars "floor plan") ∧
        AppClassifier.zscoreOf [[], [], [], []] (chars "floor plan")
            AppClassifier.Category.FLOOR_PLAN <
          AppClassifier.zscoreOf [chars "floor plan", [], [], []] []
            AppClassifier.Category.FLOOR_PLAN) :=
  ⟨by decide, by decide,
    c8_zone_weighting (chars "floor plan") AppClassifier.Category.FLOOR_PLAN
      (by decide) (by decide)⟩
